import Mathlib

/- A shallow embedding, in Lean, of the retrieval and ranking engine of the
Chatbot-Multi-Source backend: the row-based table chunkers and the dataframe
preprocessor of `document_processor.py`, the batched insertion of
`vector_store.py`, the retrieval filter and the context builder of
`rag_pipeline.py`, the sheet ranking and sheet switching of
`csv_excel_handler.py`, and the structured-query fallback loop of
`routers/query.py`.  Dataframes are lists of rows over optional string cells
(a `none` cell models a pandas NaN); floating-point scores and distances are
modelled by rationals; external collaborators (the tabulate renderer, the
embedding call, the answering agent) are modelled explicitly where noted. -/

namespace ChatbotMS

/-- Python `str.strip()`: drop leading and trailing whitespace.  (The core
`String.trim` is byte-position based; this character-list form is the same
function, stated so that concrete instances evaluate.) -/
def pyStrip (s : String) : String :=
  String.mk (((s.toList.dropWhile Char.isWhitespace).reverse.dropWhile Char.isWhitespace).reverse)

/-- Python `str.lower()`. -/
def pyLower (s : String) : String :=
  String.mk (s.toList.map Char.toLower)

/-- Python `str.startswith(pre)`. -/
def pyStartsWith (s pre : String) : Bool :=
  pre.toList.isPrefixOf s.toList

/-- Python `str.isspace()`: nonempty and every character is whitespace. -/
def strIsSpace (s : String) : Bool :=
  !s.toList.isEmpty && s.toList.all Char.isWhitespace

/-- Python `sep.join(parts)`. -/
def pyJoin (sep : String) : List String → String
  | [] => ""
  | a :: as => as.foldl (fun acc x => acc ++ sep ++ x) a

/-- Python `text[:n]` on a string (character slicing). -/
def pyTake (s : String) (n : Nat) : String :=
  String.mk (s.toList.take n)

/-- Python `pat in s` substring membership test on strings. -/
def pyInStr (pat s : String) : Bool :=
  decide (pat.toList <:+: s.toList)

/-! ## RAG pipeline (`app/services/rag_pipeline.py`)

A formatted search result as `VectorStore.search` returns it: an id, the
chunk text, its metadata (of which only `source` matters here) and an
optional cosine distance.  The float distance is modelled by a rational. -/

structure RetrievalResult where
  id : String
  text : String
  source : Option String
  distance : Option Rat
deriving DecidableEq

/-- The configured `similarity_threshold` of `RAGPipeline.retrieval_config`. -/
def similarity_threshold : Rat := 3 / 10

/-- Embedding of `RAGPipeline.retrieve_relevant_documents` (lines 30-81).
The vector-store search is an external call that either returns a result list
or raises; the surrounding `try`/`except` turns any raise into `[]`.  The
body keeps a result `r` when `r.get('distance') is None` or
`1 - r['distance'] >= similarity_threshold`. -/
def retrieve_relevant_documents
    (searchOutcome : Except String (List RetrievalResult))
    (threshold : Rat) : List RetrievalResult :=
  match searchOutcome with
  | .error _ => []
  | .ok results =>
      results.filter fun r =>
        match r.distance with
        | none => true
        | some d => decide (1 - d ≥ threshold)

/-- The per-document header written by `get_document_context`:
`f"[Source: {source}]\n{text}\n"`. -/
def formatDoc (source text : String) : String :=
  "[Source: " ++ source ++ "]\n" ++ text ++ "\n"

/-- What the context-building loop of `get_document_context` accumulates:
the formatted parts, the contributing sources (in order of addition, the
Python code keeps them in a set), and how many items were truncated. -/
structure CtxBuild where
  parts : List String
  sources : List String
  truncated : Nat
deriving DecidableEq

/-- Embedding of the loop of `RAGPipeline.get_document_context`
(lines 99-118): for each document, if adding its text would pass
`max_context_length`, either truncate it to the remaining space plus
`"..."` (when more than 100 characters remain) or stop; otherwise append
it whole.  `total_length` counts text lengths only, not the source headers. -/
def build_context : List RetrievalResult → Nat → Nat → CtxBuild
  | [], _, _ => ⟨[], [], 0⟩
  | doc :: docs, total_length, max_context_length =>
    let source := doc.source.getD "Unknown"
    let text := doc.text
    if total_length + text.length > max_context_length then
      let remaining_space := max_context_length - total_length
      if remaining_space > 100 then
        let t := pyTake text remaining_space ++ "..."
        let rest := build_context docs (total_length + t.length) max_context_length
        ⟨formatDoc source t :: rest.parts, source :: rest.sources, rest.truncated + 1⟩
      else
        ⟨[], [], 0⟩
    else
      let rest := build_context docs (total_length + text.length) max_context_length
      ⟨formatDoc source text :: rest.parts, source :: rest.sources, rest.truncated⟩

/-- Embedding of `RAGPipeline.get_document_context` (lines 83-129): runs the
budget loop and joins the parts with `"\n"`.  The Python `references` set is
modelled as the deduplicated list of contributing sources. -/
def get_document_context (documents : List RetrievalResult)
    (max_context_length : Nat) : String × List String :=
  let b := build_context documents 0 max_context_length
  (pyJoin "\n" b.parts, b.sources.eraseDups)

/-! ## Row-based chunkers (`app/services/document_processor.py`, lines 471-561)

A dataframe at the chunking stage: column labels plus string-valued rows
(`process_csv`/`process_excel` have already replaced NaN by `" "`). -/

/-- Model of the external call `tabulate(chunk_df, tablefmt="pipe",
headers="keys", showindex=False)`: a markdown pipe table with a header row, a
separator row and one line per data row (column-width padding, which only
lengthens the rendering, is not modelled). -/
def renderRow (cells : List String) : String :=
  "| " ++ pyJoin " | " cells ++ " |"

/-- Model of the external tabulate renderer on a whole chunk dataframe. -/
def tabulatePipe (cols : List String) (rows : List (List String)) : String :=
  pyJoin "\n" (renderRow cols :: renderRow (cols.map fun _ => "---") :: rows.map renderRow)

/-- Embedding of the loop of `DocumentProcessor.chunk_csv_by_rows`
(lines 493-511) for a positive `rows_per_chunk`.  Each iteration takes the
next `rows_per_chunk` rows as `chunk_df`; an oversized rendering recurses on
`chunk_df` with `max(1, rows_per_chunk // 2)`.  The Python recursion has no
base case that could stop a single oversized row from recursing on itself
forever, so the embedding carries a fuel argument, decremented at every
iteration and recursive call: `none` means the Python call does not return
within that recursion budget, and an input on which every fuel yields `none`
is one on which the Python function never returns. -/
def chunk_csv_go : Nat → List String → List (List String) → Nat → Nat → Option (List String)
  | _, _, [], _, _ => some []
  | 0, _, _ :: _, _, _ => none
  | fuel + 1, cols, r :: rs, rows_per_chunk, max_chunk_size =>
    let chunk_df := (r :: rs).take rows_per_chunk
    let rest := (r :: rs).drop rows_per_chunk
    let markdown_table := tabulatePipe cols chunk_df
    if markdown_table.length > max_chunk_size then
      match chunk_csv_go fuel cols chunk_df (max 1 (rows_per_chunk / 2)) max_chunk_size with
      | none => none
      | some reduced =>
        match chunk_csv_go fuel cols rest rows_per_chunk max_chunk_size with
        | none => none
        | some more => some (reduced ++ more)
    else
      match chunk_csv_go fuel cols rest rows_per_chunk max_chunk_size with
      | none => none
      | some more => some (markdown_table :: more)

/-- Embedding of `DocumentProcessor.chunk_csv_by_rows` (lines 471-512).
`rows_per_chunk` is an `Int` because the Python `range(0, total_rows,
current_rows_per_chunk)` accepts any integer step: a zero step raises
`ValueError` (no list is returned, `none`), a negative step makes the range
empty (no chunk is emitted). -/
def chunk_csv_by_rows (fuel : Nat) (cols : List String)
    (rows : List (List String)) (rows_per_chunk : Int)
    (max_chunk_size : Nat) : Option (List String) :=
  if rows.length = 0 then some []
  else if rows_per_chunk = 0 then none
  else if rows_per_chunk < 0 then some []
  else chunk_csv_go fuel cols rows rows_per_chunk.toNat max_chunk_size

/-- Embedding of the loop of `DocumentProcessor.chunk_excel_by_rows`
(lines 538-560): as `chunk_csv_go`, but each chunk is prefixed by
`f"## Sheet: {sheet_name} (Rows {start_idx + 1}-{end_idx})\n\n"`; the row
range restarts at 0 when recursing on a sub-dataframe, exactly as the row
ranges of the Python `chunk_df` do. -/
def chunk_excel_go : Nat → String → List String → List (List String) → Nat → Nat → Nat → Option (List String)
  | _, _, _, [], _, _, _ => some []
  | 0, _, _, _ :: _, _, _, _ => none
  | fuel + 1, sheet_name, cols, r :: rs, start_idx, rows_per_chunk, max_chunk_size =>
    let chunk_df := (r :: rs).take rows_per_chunk
    let rest := (r :: rs).drop rows_per_chunk
    let end_idx := start_idx + chunk_df.length
    let markdown_table := tabulatePipe cols chunk_df
    let sheet_header := "## Sheet: " ++ sheet_name ++ " (Rows " ++
      toString (start_idx + 1) ++ "-" ++ toString end_idx ++ ")\n\n"
    let full_chunk := sheet_header ++ markdown_table
    if full_chunk.length > max_chunk_size then
      match chunk_excel_go fuel sheet_name cols chunk_df 0 (max 1 (rows_per_chunk / 2)) max_chunk_size with
      | none => none
      | some reduced =>
        match chunk_excel_go fuel sheet_name cols rest end_idx rows_per_chunk max_chunk_size with
        | none => none
        | some more => some (reduced ++ more)
    else
      match chunk_excel_go fuel sheet_name cols rest end_idx rows_per_chunk max_chunk_size with
      | none => none
      | some more => some (full_chunk :: more)

/-- Embedding of `DocumentProcessor.chunk_excel_by_rows` (lines 514-561). -/
def chunk_excel_by_rows (fuel : Nat) (sheet_name : String) (cols : List String)
    (rows : List (List String)) (rows_per_chunk : Int)
    (max_chunk_size : Nat) : Option (List String) :=
  if rows.length = 0 then some []
  else if rows_per_chunk = 0 then none
  else if rows_per_chunk < 0 then some []
  else chunk_excel_go fuel sheet_name cols rows 0 rows_per_chunk.toNat max_chunk_size

/-! ## Table preprocessor (`document_processor.py` lines 162-224 and
`csv_excel_handler.py` lines 31-68)

A raw dataframe: column labels and rows of cells, a cell being `none`
(pandas NaN) or a string value. -/

abbrev Cell := Option String

structure RawDF where
  cols : List String
  rows : List (List Cell)
deriving DecidableEq

/-- Python `pd.isna(val) or str(val).strip() == ''`: the emptiness test used
for empty-row removal and the valid/invalid column counts. -/
def cellEmpty (c : Cell) : Bool :=
  match c with
  | none => true
  | some s => pyStrip s = ""

/-- A row every cell of which is empty (dropped by the first step). -/
def rowIsEmpty (r : List Cell) : Bool := r.all cellEmpty

/-- Embedding of `count_valid` (valid cells of column `j`). A missing cell of
a ragged row counts as NaN. -/
def count_valid (rows : List (List Cell)) (j : Nat) : Nat :=
  (rows.filter fun r => !cellEmpty (r.getD j none)).length

/-- Embedding of `count_invalid` (empty cells of column `j`). -/
def count_invalid (rows : List (List Cell)) (j : Nat) : Nat :=
  (rows.filter fun r => cellEmpty (r.getD j none)).length

/-- Python `str(col).startswith('Unnamed') or str(col).isspace() or
str(col) == ''`: a column label in need of header repair. -/
def colBad (c : String) : Bool :=
  pyStartsWith c "Unnamed" || strIsSpace c || c = ""

/-- The promoted label for position `i` holding cell `val`:
`f'Unnamed: {i}'` if the cell is NaN, whitespace or empty, else
`str(val).strip()`. -/
def promoteCell (i : Nat) (c : Cell) : String :=
  match c with
  | none => "Unnamed: " ++ toString i
  | some s => if strIsSpace s || s = "" then "Unnamed: " ++ toString i else pyStrip s

/-- Python `str(row[col])`: a NaN cell prints as `"nan"`. -/
def cellStr (c : Cell) : String :=
  match c with
  | none => "nan"
  | some s => s

/-- Python `all(str(row[col]).strip() == str(col).strip() for col in
df.columns)`: the row repeats the header.  Rows and columns are matched
positionally (pandas dataframes are rectangular). -/
def rowEcho (cols : List String) (r : List Cell) : Bool :=
  (cols.zip r).all fun p => pyStrip (cellStr p.2) = pyStrip p.1

/-- Embedding of the bounded header-repair loop of
`DocumentProcessor.preprocess_dataframe` (lines 197-216): while some column
label is bad and rows remain (at most `max_iterations = 10` times), promote
the first row to the labels; the row is consumed only when more than one row
remains, otherwise the loop breaks keeping it. -/
def headerRepair : Nat → List String → List (List Cell) → List String × List (List Cell)
  | 0, cols, rows => (cols, rows)
  | iteration + 1, cols, rows =>
    if rows.length > 0 && cols.any colBad then
      let new_columns := (rows.headD []).enum.map fun p => promoteCell p.1 p.2
      if rows.length > 1 then headerRepair iteration new_columns rows.tail
      else (new_columns, rows)
    else (cols, rows)

/-- Embedding of `DocumentProcessor.preprocess_dataframe` (lines 162-224):
drop all-empty rows (returning early when nothing remains), keep only the
columns with strictly more valid than invalid cells (returning an empty
dataframe when none survives), run the bounded header repair, then drop the
header-echo rows. -/
def preprocess_dataframe (df : RawDF) : RawDF :=
  let rows1 := df.rows.filter fun r => !rowIsEmpty r
  if rows1.isEmpty then { cols := df.cols, rows := [] }
  else
    let cols_to_keep := (List.range df.cols.length).filter fun j =>
      count_valid rows1 j > count_invalid rows1 j
    if cols_to_keep.isEmpty then { cols := [], rows := [] }
    else
      let cols2 := cols_to_keep.map fun j => df.cols.getD j ""
      let rows2 := rows1.map fun r => cols_to_keep.map fun j => r.getD j (none : Cell)
      let p := headerRepair 10 cols2 rows2
      if p.2.isEmpty then { cols := p.1, rows := [] }
      else { cols := p.1, rows := p.2.filter fun r => !rowEcho p.1 r }

/-- Embedding of the unbounded header-repair loop of
`CSVExcelHandler.preprocess_sheet` (lines 54-63): unlike
`preprocess_dataframe`, every promotion consumes the promoted row, so the
loop is structural in the rows. -/
def headerRepairAll : List String → List (List Cell) → List String × List (List Cell)
  | cols, [] => (cols, [])
  | cols, r :: rs =>
    if cols.any colBad then
      headerRepairAll (r.enum.map fun p => promoteCell p.1 p.2) rs
    else (cols, r :: rs)

/-- Embedding of `CSVExcelHandler.preprocess_sheet` (lines 31-68): the same
four steps as `preprocess_dataframe` but with no early returns and no
iteration bound on the header repair. -/
def preprocess_sheet (df : RawDF) : RawDF :=
  let rows1 := df.rows.filter fun r => !rowIsEmpty r
  let cols_to_keep_final := (List.range df.cols.length).filter fun j =>
    count_valid rows1 j > count_invalid rows1 j
  let cols2 := cols_to_keep_final.map fun j => df.cols.getD j ""
  let rows2 := rows1.map fun r => cols_to_keep_final.map fun j => r.getD j (none : Cell)
  let p := headerRepairAll cols2 rows2
  { cols := p.1, rows := p.2.filter fun r => !rowEcho p.1 r }

/-- A nonempty dataframe satisfying the preprocessor's cleaning invariants:
rectangular, no all-empty row, a nonempty list of column labels each backed
by strictly more valid than invalid cells, no label in need of repair and no
header-echo row. -/
def isCleanBody (df : RawDF) : Bool :=
  df.rows.all (fun r => !rowIsEmpty r) &&
    df.rows.all (fun r => r.length = df.cols.length) &&
    !df.cols.isEmpty &&
    (List.range df.cols.length).all
      (fun j => count_valid df.rows j > count_invalid df.rows j) &&
    !df.cols.any colBad &&
    df.rows.all fun r => !rowEcho df.cols r

/-- The dataframes `preprocess_dataframe` leaves unchanged: clean nonempty
ones, and any dataframe with no rows (the early return keeps its columns). -/
def isCleanDF (df : RawDF) : Bool :=
  df.rows.isEmpty || isCleanBody df

/-- The dataframes `preprocess_sheet` leaves unchanged: clean nonempty ones,
and the fully empty dataframe (with no rows, `preprocess_sheet` keeps no
column either, so columns must already be gone). -/
def isCleanSheet (df : RawDF) : Bool :=
  (df.rows.isEmpty && df.cols.isEmpty) || isCleanBody df

/-! ## Vector store insertion (`app/services/vector_store.py`, lines 60-118)

An item to insert: its id (Python passes ids or draws UUIDs) and whether the
external `collection.add` embedding call fails on it.  A batch call to
`collection.add` raises exactly when some item of the batch fails, and a
raising call commits nothing; a single-item call commits its item exactly
when the item does not fail. -/

structure DocItem where
  id : String
  bad : Bool
deriving DecidableEq

/-- The `batch_size = 100` of `add_documents`. -/
def batch_size : Nat := 100

/-- Embedding of the batch loop of `VectorStore.add_documents`
(lines 83-111) over the list of batch start indices.  The result pairs the
ids actually committed to the collection (in order) with `some all_ids` on a
normal return and `none` when the call raises: after a failed batch call the
items are retried one by one, committed items accumulate, and the first item
that fails again re-raises, aborting the whole call while earlier commits
remain. -/
def add_batches (items : List DocItem) : List Nat → List String × Option (List String)
  | [] => ([], some [])
  | i :: is =>
    let batch := (items.drop i).take batch_size
    if batch.any (fun d => d.bad) then
      (((batch.takeWhile fun d => !d.bad).map fun d => d.id), none)
    else
      let rest := add_batches items is
      ((batch.map fun d => d.id) ++ rest.1, rest.2.map fun l => (batch.map fun d => d.id) ++ l)

/-- Embedding of `VectorStore.add_documents` (lines 60-118): the Python
`range(0, len(texts), batch_size)` of batch start offsets drives
`add_batches`. -/
def add_documents (items : List DocItem) : List String × Option (List String) :=
  add_batches items ((List.range ((items.length + (batch_size - 1)) / batch_size)).map (· * batch_size))

/-! ## Stable descending sort (Python `sorted(..., key=..., reverse=True)`
and `list.sort(key=..., reverse=True)`)

Python's sort is stable; with `reverse=True` it orders by descending key and
keeps equal-key elements in their original order.  The model is the stable
insertion sort that keeps an already-placed element before a newcomer of
equal or smaller key. -/

def insertDesc (key : α → Rat) (x : α) : List α → List α
  | [] => [x]
  | y :: ys => if key x ≤ key y then y :: insertDesc key x ys else x :: y :: ys

/-- Model of Python's stable descending sort by `key`. -/
def pySortDesc (key : α → Rat) (l : List α) : List α :=
  l.foldl (fun acc x => insertDesc key x acc) []

/-- Insertion into a list sorted by strictly descending key with ties by
ascending original position: the reference order "descending by score, ties
broken by original insertion order" stated by the specification. -/
def insertLex (key : α → Rat) (x : Nat × α) : List (Nat × α) → List (Nat × α)
  | [] => [x]
  | y :: ys =>
    if key x.2 < key y.2 ∨ (key x.2 = key y.2 ∧ y.1 ≤ x.1) then y :: insertLex key x ys
    else x :: y :: ys

/-- Reference sort of position-annotated elements by (key descending,
position ascending). -/
def lexSortIdx (key : α → Rat) (l : List (Nat × α)) : List (Nat × α) :=
  l.foldl (fun acc x => insertLex key x acc) []

/-- Element `y` may stand before `z` in the reference order: strictly larger
key, or equal key and not-later original position. -/
def lexBefore (key : α → Rat) (y z : Nat × α) : Prop :=
  key z.2 < key y.2 ∨ (key y.2 = key z.2 ∧ y.1 ≤ z.1)

/-! ## Sheet ranking and sheet switching (`app/services/csv_excel_handler.py`)

The handler's loaded sheets are the insertion-ordered `dfs` dictionary; the
TF-IDF relevance score computed by `calculate_sheet_relevance` is an external,
float-valued computation, modelled as an arbitrary rational-valued function
of the sheet name (the per-handler dataframes being fixed). -/

/-- Embedding of `CSVExcelHandler.find_most_relevant_sheets` (lines 247-267):
with exactly one sheet, return it with no score computed; otherwise score
every sheet, sort the (sheet, score) items by Python's stable descending
sort on the score and keep the first `top_n` names. -/
def find_most_relevant_sheets (score : String → Rat) (sheets : List String)
    (top_n : Nat) : List String :=
  if sheets.length = 1 then [sheets.headD ""]
  else
    let relevance_scores := sheets.map fun s => (s, score s)
    let sorted_sheets := pySortDesc (fun p => p.2) relevance_scores
    (sorted_sheets.take top_n).map Prod.fst

/-- The ranking the specification describes, written from its words: one
sheet is returned as is; otherwise the sheets, annotated with their original
insertion positions, are ordered by score descending with ties broken by
ascending position, and the top `top_n` names are returned. -/
def rankSheetsSpec (score : String → Rat) (sheets : List String)
    (top_n : Nat) : List String :=
  if sheets.length = 1 then sheets
  else ((lexSortIdx (fun s => score s) sheets.enum).map Prod.snd).take top_n

/-- The in-memory state of a `CSVExcelHandler`: the insertion-ordered `dfs`
dictionary (keys are unique) and the mutable `current_sheet` pointer. -/
structure HandlerState where
  dfs : List (String × RawDF)
  current_sheet : Option String
deriving DecidableEq

/-- Embedding of `CSVExcelHandler.list_sheets` (lines 168-175). -/
def list_sheets (h : HandlerState) : List String :=
  h.dfs.map Prod.fst

/-- Python `repr` of a list of strings, as interpolating
`self.list_sheets()` into the error f-string prints it. -/
def pyStrListRepr (l : List String) : String :=
  "[" ++ pyJoin ", " (l.map fun s => "'" ++ s ++ "'") ++ "]"

/-- Embedding of `CSVExcelHandler.get_current_df` (lines 157-166): raises
when nothing is loaded, else looks `current_sheet` up in `dfs` (a missing or
unset key is a Python `KeyError`). -/
def get_current_df (h : HandlerState) : Except String RawDF :=
  if h.dfs.isEmpty then
    .error "No data loaded. Call load_and_preprocess_data first."
  else
    match h.current_sheet with
    | none => .error "KeyError: None"
    | some c =>
      match h.dfs.find? fun p => p.1 = c with
      | some p => .ok p.2
      | none => .error ("KeyError: " ++ c)

/-- Embedding of `CSVExcelHandler.switch_sheet` (lines 177-190) as a state
transition: an unknown sheet name raises a `ValueError` naming the available
sheets and leaves the state as it was; a known one repoints `current_sheet`
and returns `get_current_df` of the new state. -/
def switch_sheet (h : HandlerState) (sheet_name : String) :
    HandlerState × Except String RawDF :=
  if ¬ (h.dfs.map Prod.fst).contains sheet_name then
    (h, .error ("Sheet '" ++ sheet_name ++ "' not found. Available sheets: " ++
      pyStrListRepr (list_sheets h)))
  else
    let h2 := { h with current_sheet := some sheet_name }
    (h2, get_current_df h2)

/-! ## Structured-query fallback controller (`app/routers/query.py`,
lines 278-431)

A handler's sheet as the controller sees it: its name and whether its
preprocessed dataframe is empty.  The external answering agent is modelled
as a function from (source, sheet) to the response string it produces; the
TF-IDF relevance is, as above, an external score function. -/

structure SheetInfo where
  name : String
  isEmptyDF : Bool
deriving DecidableEq

/-- One entry of the `sheets_to_try` list built at lines 312-328. -/
structure Candidate where
  source_name : String
  sheet_name : String
  relevance : Rat
  isEmptyDF : Bool
  response : String
deriving DecidableEq

/-- The flattened candidate list before the global sort: per loaded file, the
sheets in the order `find_most_relevant_sheets(query, top_n=len(dfs))`
returns them, each paired with its recomputed relevance, its dataframe
emptiness and the response the external agent would give on it. -/
def candidatesFlat (loaded_files : List (String × List SheetInfo))
    (score : String → String → Rat) (answer : String → String → String) :
    List Candidate :=
  (loaded_files.map fun f =>
    (find_most_relevant_sheets (score f.1) (f.2.map SheetInfo.name) f.2.length).map
      fun sheet =>
        { source_name := f.1
          sheet_name := sheet
          relevance := score f.1 sheet
          isEmptyDF := ((f.2.find? fun e => e.name = sheet).map SheetInfo.isEmptyDF).getD true
          response := answer f.1 sheet }).flatten

/-- The globally sorted `sheets_to_try` list of line 331:
`sheets_to_try.sort(key=lambda x: x['relevance'], reverse=True)`. -/
def sheets_to_try (loaded_files : List (String × List SheetInfo))
    (score : String → String → Rat) (answer : String → String → String) :
    List Candidate :=
  pySortDesc (fun c => c.relevance) (candidatesFlat loaded_files score answer)

/-- The acceptance test of lines 395-400 on the stripped response: non-empty
and free of the case-insensitive substrings `"error"`, `"not found"` and
`"no relevant"`. -/
def conclusive (response_text : String) : Bool :=
  response_text ≠ "" &&
    !pyInStr "error" (pyLower response_text) &&
    !pyInStr "not found" (pyLower response_text) &&
    !pyInStr "no relevant" (pyLower response_text)

/-- The terminal error message of lines 420-425: the base text, extended
with the last recorded inconclusive response when there is a truthy one. -/
def unanswerableMsg (last_error : Option String) : String :=
  "Could not find relevant data to answer your question." ++
    match last_error with
    | some s => if s ≠ "" then " Last error: " ++ s else ""
    | none => ""

/-- Embedding of the candidate loop of `_query_with_csv_context`
(lines 340-425): skip a candidate whose dataframe is empty, accept the first
stripped response passing `conclusive` (returning it with its single
source reference), record an inconclusive response as `last_error` and go
on; exhausted candidates raise the unanswerable error. -/
def try_sheets : List Candidate → Option String → Except String (String × List String)
  | [], last_error => .error (unanswerableMsg last_error)
  | c :: cs, last_error =>
    if c.isEmptyDF then try_sheets cs last_error
    else
      let response_text := pyStrip c.response
      if conclusive response_text then
        .ok (response_text, [c.source_name ++ " (sheet: " ++ c.sheet_name ++ ")"])
      else try_sheets cs (some response_text)

/-- Embedding of `_query_with_csv_context` (lines 278-431): build the global
candidate list, fail when it is empty, otherwise run the fallback loop with
no error recorded yet. -/
def query_with_csv_context (loaded_files : List (String × List SheetInfo))
    (score : String → String → Rat) (answer : String → String → String) :
    Except String (String × List String) :=
  let candidates := sheets_to_try loaded_files score answer
  if candidates.isEmpty then .error "No CSV/Excel data available"
  else try_sheets candidates none

/-- The fallback behaviour the specification describes, written from its
words: among the candidates whose table is not empty (the attempted ones, in
list order), the first one whose stripped response is conclusive is returned
with its reference; if none is, the unanswerable error carries the stripped
response of the last attempted candidate. -/
def fallbackSpec (cands : List Candidate) : Except String (String × List String) :=
  let attempted := cands.filter fun c => !c.isEmptyDF
  match attempted.find? fun c => conclusive (pyStrip c.response) with
  | some c => .ok (pyStrip c.response, [c.source_name ++ " (sheet: " ++ c.sheet_name ++ ")"])
  | none => .error (unanswerableMsg (attempted.getLast?.map fun c => pyStrip c.response))

/-! ## Concrete instances used by witnesses and counterexamples -/

/-- A single row whose rendering exceeds a `max_chunk_size` of 5. -/
def oversizedRow : String := String.mk (List.replicate 30 'a')

/-- A dataframe with one sparse column: kept column `A` is empty exactly on
the row that is valid only in the dropped column `B`, so the first
preprocessing pass leaves an all-empty row behind. -/
def sparseT : RawDF :=
  ⟨["A", "B"],
   [[some "x", none], [some "y", none], [none, some "z"], [some "w", none]]⟩

/-- A dataframe that is already clean. -/
def cleanT : RawDF := ⟨["A"], [[some "x"]]⟩

/-- 150 insertion items of which exactly the one at index 73 fails to embed
even when retried individually. -/
def items150 : List DocItem :=
  (List.range 150).map fun i => { id := toString i, bad := i == 73 }

/-- Three retrieved documents of 10 characters each from a 10-character
source name: with a budget of 30 all three fit untruncated, and the three
source headers overflow any single-header accounting. -/
def docs3 : List RetrievalResult :=
  [⟨"1", "0123456789", some "abcdefghij", none⟩,
   ⟨"2", "0123456789", some "abcdefghij", none⟩,
   ⟨"3", "0123456789", some "abcdefghij", none⟩]

/-- A search result whose distance 1/2 passes the 3/10 threshold. -/
def passingResult : RetrievalResult := ⟨"id1", "some text", some "doc.pdf", some (1 / 2)⟩

/-- A two-sheet handler state for the sheet-switching witness. -/
def hsample : HandlerState := ⟨[("s1", cleanT), ("s2", sparseT)], some "s1"⟩

/-! ## Theorems -/

/-- At a single row whose rendering exceeds the size limit, every iteration
of the csv chunk loop recurses on the identical sub-dataframe with the same
parameters, so no recursion budget suffices. -/
theorem chunk_csv_go_loops (fuel : Nat) :
    chunk_csv_go fuel ["c"] [[oversizedRow]] 1 5 = none := by
  induction fuel with
  | zero => rfl
  | succ n ih =>
    have step : chunk_csv_go (n + 1) ["c"] [[oversizedRow]] 1 5 =
        (match chunk_csv_go n ["c"] [[oversizedRow]] 1 5 with
         | none => none
         | some reduced =>
           match chunk_csv_go n ["c"] ([] : List (List String)) 1 5 with
           | none => none
           | some more => some (reduced ++ more)) := rfl
    rw [step, ih]

/-- The excel chunk loop loops the same way on a single oversized row. -/
theorem chunk_excel_go_loops (fuel : Nat) :
    chunk_excel_go fuel "S" ["c"] [[oversizedRow]] 0 1 5 = none := by
  induction fuel with
  | zero => rfl
  | succ n ih =>
    have step : chunk_excel_go (n + 1) "S" ["c"] [[oversizedRow]] 0 1 5 =
        (match chunk_excel_go n "S" ["c"] [[oversizedRow]] 0 1 5 with
         | none => none
         | some reduced =>
           match chunk_excel_go n "S" ["c"] ([] : List (List String)) 1 1 5 with
           | none => none
           | some more => some (reduced ++ more)) := rfl
    rw [step, ih]

/-- C1: the claim that `chunk_csv_by_rows` and `chunk_excel_by_rows` always
terminate, emitting a single oversized row as-is once `rowsPerChunk` reaches
1, fails on the code: at a one-row dataframe whose rendering exceeds
`max_chunk_size`, the recursion re-enters itself on the identical dataframe
with `rows_per_chunk = max(1, 1 // 2) = 1` and never returns (a Python
`RecursionError`), for every recursion budget. -/
theorem chunk_by_rows_single_oversized_row_never_returns :
    ∀ fuel : Nat,
      chunk_csv_by_rows fuel ["c"] [[oversizedRow]] 1 5 = none ∧
      chunk_excel_by_rows fuel "S" ["c"] [[oversizedRow]] 1 5 = none :=
  fun fuel => ⟨chunk_csv_go_loops fuel, chunk_excel_go_loops fuel⟩

/-- Whenever the csv chunk loop returns, its chunks are the renderings of a
partition of the rows into nonempty consecutive windows. -/
theorem chunk_csv_go_coverage (cols : List String) :
    ∀ (fuel : Nat) (rows : List (List String)) (rpc mcs : Nat) (cs : List String),
      1 ≤ rpc →
      chunk_csv_go fuel cols rows rpc mcs = some cs →
      ∃ ws : List (List (List String)),
        cs = ws.map (tabulatePipe cols) ∧ ws.flatten = rows ∧ ∀ w ∈ ws, w ≠ [] := by
  intro fuel
  induction fuel with
  | zero =>
    intro rows rpc mcs cs hp h
    cases rows with
    | nil =>
      refine ⟨[], ?_, rfl, by simp⟩
      simpa [chunk_csv_go] using h.symm
    | cons r rs => simp [chunk_csv_go] at h
  | succ n ih =>
    intro rows rpc mcs cs hp h
    cases rows with
    | nil =>
      refine ⟨[], ?_, rfl, by simp⟩
      simpa [chunk_csv_go] using h.symm
    | cons r rs =>
      simp only [chunk_csv_go] at h
      split at h
      · rename_i hbig
        cases h1 : chunk_csv_go n cols ((r :: rs).take rpc) (max 1 (rpc / 2)) mcs with
        | none => rw [h1] at h; exact absurd h (by simp)
        | some reduced =>
          cases h2 : chunk_csv_go n cols ((r :: rs).drop rpc) rpc mcs with
          | none => rw [h1, h2] at h; exact absurd h (by simp)
          | some more =>
            rw [h1, h2] at h
            obtain ⟨ws₁, e₁, f₁, m₁⟩ :=
              ih ((r :: rs).take rpc) (max 1 (rpc / 2)) mcs reduced (le_max_left 1 _) h1
            obtain ⟨ws₂, e₂, f₂, m₂⟩ := ih ((r :: rs).drop rpc) rpc mcs more hp h2
            refine ⟨ws₁ ++ ws₂, ?_, ?_, ?_⟩
            · simp only [Option.some.injEq] at h
              rw [← h, e₁, e₂, List.map_append]
            · rw [List.flatten_append, f₁, f₂, List.take_append_drop]
            · intro w hw
              rcases List.mem_append.mp hw with hw | hw
              · exact m₁ w hw
              · exact m₂ w hw
      · cases h2 : chunk_csv_go n cols ((r :: rs).drop rpc) rpc mcs with
        | none => rw [h2] at h; exact absurd h (by simp)
        | some more =>
          rw [h2] at h
          obtain ⟨ws₂, e₂, f₂, m₂⟩ := ih ((r :: rs).drop rpc) rpc mcs more hp h2
          refine ⟨(r :: rs).take rpc :: ws₂, ?_, ?_, ?_⟩
          · simp only [Option.some.injEq] at h
            rw [← h, e₂, List.map_cons]
          · rw [List.flatten_cons, f₂, List.take_append_drop]
          · intro w hw
            rcases List.mem_cons.mp hw with hw | hw
            · obtain ⟨k, rfl⟩ := Nat.exists_eq_add_of_le hp
              subst hw
              simp [List.take_cons]
            · exact m₂ w hw

/-- C2 (amended): for `rowsPerChunk ≥ 1`, whenever `chunk_csv_by_rows`
returns at all, its chunks are the renderings (each containing the column
header) of nonempty consecutive row windows whose concatenation is exactly
the input row sequence — no row dropped, duplicated or split.  (As stated,
the claim also quantified over non-positive `rowsPerChunk`, where the Python
`range` emits no chunk at all, and over inputs on which the call never
returns.) -/
theorem chunk_csv_by_rows_coverage (fuel : Nat) (cols : List String)
    (rows : List (List String)) (rows_per_chunk : Int) (max_chunk_size : Nat)
    (cs : List String)
    (hpos : 1 ≤ rows_per_chunk)
    (hret : chunk_csv_by_rows fuel cols rows rows_per_chunk max_chunk_size = some cs) :
    ∃ ws : List (List (List String)),
      cs = ws.map (tabulatePipe cols) ∧ ws.flatten = rows ∧ ∀ w ∈ ws, w ≠ [] := by
  unfold chunk_csv_by_rows at hret
  by_cases h0 : rows.length = 0
  · rw [if_pos h0] at hret
    refine ⟨[], ?_, ?_, by simp⟩
    · simpa using hret.symm
    · simpa using (List.length_eq_zero.mp h0).symm
  · rw [if_neg h0, if_neg (by omega), if_neg (by omega)] at hret
    exact chunk_csv_go_coverage cols fuel rows rows_per_chunk.toNat max_chunk_size cs
      (by omega) hret

/-- C2 witness: a 3-row table chunked two rows at a time is covered by the
windows `[r1, r2]` and `[r3]`. -/
theorem chunk_csv_by_rows_coverage_witness :
    (1 : Int) ≤ 2 ∧
    ∃ ws : List (List (List String)),
      (chunk_csv_by_rows 9 ["a"] [["r1"], ["r2"], ["r3"]] 2 1000).getD []
          = ws.map (tabulatePipe ["a"]) ∧
        ws.flatten = [["r1"], ["r2"], ["r3"]] ∧ ∀ w ∈ ws, w ≠ [] :=
  ⟨by decide,
   chunk_csv_by_rows_coverage 9 ["a"] [["r1"], ["r2"], ["r3"]] 2 1000 _ (by decide) rfl⟩

/-- C2 counterexample: with the (claim-quantified) value `rowsPerChunk = -1`
the Python `range(0, 1, -1)` is empty, so a one-row table yields no chunk at
all and the row is dropped rather than covered exactly once. -/
theorem chunk_csv_by_rows_negative_step_drops_rows :
    chunk_csv_by_rows 5 ["a"] [["x"]] (-1) 25000 = some [] ∧
      ([["x"]] : List (List String)) ≠ [] :=
  ⟨rfl, by decide⟩

set_option maxRecDepth 40000 in
/-- C3 counterexample: inserting the 150 items of which exactly the one at
index 73 keeps failing commits 73 documents — those before the failing item —
and aborts the call (no id list is returned), not the claimed 149 with a
reported failure. -/
theorem add_documents_aborts_with_73_committed :
    (add_documents items150).1.length = 73 ∧
      (add_documents items150).2 = none ∧ (73 : Nat) ≠ 149 :=
  ⟨by rfl, by rfl, by decide⟩

set_option maxRecDepth 40000 in
/-- C3 (amended): on 150 texts whose only persistently failing item sits at
index 73, `add_documents` commits exactly the 73 documents before it (batch
1 fails as a whole, its items are retried one by one, items 0-72 commit) and
then the re-raised per-item error aborts the call: the rest of batch 1 and
all of batch 2 are never attempted, while the committed inserts remain. -/
theorem add_documents_commits_exactly_the_prefix :
    add_documents items150 = ((items150.take 73).map DocItem.id, none) := by
  rfl

/-- C5: every result returned by `retrieve_relevant_documents` either has no
distance or satisfies `1 - distance ≥ threshold`. -/
theorem retrieve_relevant_documents_threshold (searchOutcome : Except String (List RetrievalResult))
    (threshold : Rat) (r : RetrievalResult)
    (h : r ∈ retrieve_relevant_documents searchOutcome threshold) :
    r.distance = none ∨ ∃ d, r.distance = some d ∧ 1 - d ≥ threshold := by
  cases searchOutcome with
  | error e => simp [retrieve_relevant_documents] at h
  | ok results =>
    have hp := (List.mem_filter.mp h).2
    cases hd : r.distance with
    | none => exact Or.inl rfl
    | some d =>
      refine Or.inr ⟨d, rfl, ?_⟩
      rw [hd] at hp
      exact of_decide_eq_true hp

/-- C5 witness: a result at distance 1/2 passes the default 3/10 threshold
and is returned. -/
theorem retrieve_relevant_documents_threshold_witness :
    passingResult ∈ retrieve_relevant_documents (Except.ok [passingResult]) similarity_threshold ∧
      (passingResult.distance = none ∨
        ∃ d, passingResult.distance = some d ∧ 1 - d ≥ similarity_threshold) := by
  have hmem : passingResult ∈
      retrieve_relevant_documents (Except.ok [passingResult]) similarity_threshold := by
    simp only [retrieve_relevant_documents, List.filter, passingResult, similarity_threshold]
    norm_num
  exact ⟨hmem, retrieve_relevant_documents_threshold (Except.ok [passingResult])
    similarity_threshold passingResult hmem⟩

/-- C9: when the vector-store search raises, `retrieve_relevant_documents`
returns the empty list — the same value a successful search with no
(surviving) result produces, so the caller cannot tell the two apart. -/
theorem retrieve_relevant_documents_swallows_search_errors :
    (∀ (e : String) (threshold : Rat),
        retrieve_relevant_documents (.error e) threshold = []) ∧
    (∀ threshold : Rat, retrieve_relevant_documents (.ok []) threshold = []) :=
  ⟨fun _ _ => rfl, fun _ => rfl⟩


/-- The positions of `List.range l.length` read back through `getD` rebuild
the list (used for the column re-selection steps). -/
theorem getD_range_map (l : List α) (d : α) :
    (List.range l.length).map (fun j => l.getD j d) = l := by
  induction l with
  | nil => rfl
  | cons a l ih =>
    rw [List.length_cons, List.range_succ_eq_map, List.map_cons, List.map_map]
    have hc : ((fun j => (a :: l).getD j d) ∘ Nat.succ) = fun j => l.getD j d := by
      funext j
      rfl
    rw [hc, ih]
    rfl

theorem preprocess_dataframe_fix (df : RawDF) (h : isCleanDF df = true) :
    preprocess_dataframe df = df := by
  obtain ⟨cols, rows⟩ := df
  rw [isCleanDF, Bool.or_eq_true] at h
  rcases h with hempty | hbody
  · have : rows = [] := by simpa using hempty
    subst this
    rfl
  · rw [isCleanBody] at hbody
    simp only [Bool.and_eq_true] at hbody
    obtain ⟨⟨⟨⟨⟨c1, c2⟩, c3⟩, c4⟩, c5⟩, c6⟩ := hbody
    have p2 : ∀ r ∈ rows, r.length = cols.length := by
      intro r hr
      simpa using (List.all_eq_true.mp c2) r hr
    have p3 : cols ≠ [] := by simpa using c3
    have p4 : ∀ j, j < cols.length → count_valid rows j > count_invalid rows j := by
      intro j hj
      simpa using (List.all_eq_true.mp c4) j (List.mem_range.mpr hj)
    have p5 : cols.any colBad = false := by simpa using c5
    -- the cleaned rows are nonempty: column 0 exists and has a valid cell
    have hrne : rows ≠ [] := by
      intro he
      have h0 := p4 0 (by cases cols with | nil => exact absurd rfl p3 | cons a l => simp)
      subst he
      simp [count_valid, count_invalid] at h0
    have hrows1 : rows.filter (fun r => !rowIsEmpty r) = rows :=
      List.filter_eq_self.mpr fun r hr => by
        simpa using (List.all_eq_true.mp c1) r hr
    have hkeep : (List.range cols.length).filter
        (fun j => decide (count_valid rows j > count_invalid rows j)) = List.range cols.length :=
      List.filter_eq_self.mpr fun j hj => by
        simpa using p4 j (List.mem_range.mp hj)
    have hcols2 : (List.range cols.length).map (fun j => cols.getD j "") = cols :=
      getD_range_map cols ""
    have hrows2 : rows.map (fun r => (List.range cols.length).map fun j => r.getD j (none : Cell))
        = rows := by
      have he : ∀ r ∈ rows, (List.range cols.length).map (fun j => r.getD j (none : Cell)) = r := by
        intro r hr
        rw [← p2 r hr]
        exact getD_range_map r none
      calc rows.map (fun r => (List.range cols.length).map fun j => r.getD j (none : Cell))
          = rows.map id := List.map_congr_left fun r hr => he r hr
        _ = rows := List.map_id rows
    have hrepair : headerRepair 10 cols rows = (cols, rows) := by
      show headerRepair (9 + 1) cols rows = (cols, rows)
      rw [headerRepair, p5]
      simp
    have hecho : rows.filter (fun r => !rowEcho cols r) = rows :=
      List.filter_eq_self.mpr fun r hr => by
        simpa using (List.all_eq_true.mp c6) r hr
    have hempty1 : (rows.filter fun r => !rowIsEmpty r).isEmpty = false := by
      rw [hrows1]
      simpa using hrne
    rw [preprocess_dataframe]
    simp only [hrows1, hempty1, Bool.false_eq_true, if_false, hkeep, hcols2, hrows2, hrepair]
    have hrangene : List.range cols.length ≠ [] := by
      rw [Ne, List.range_eq_nil]
      exact fun hc => p3 (List.length_eq_zero.mp hc)
    have hkeepne : (List.range cols.length).isEmpty = false := by simpa using hrangene
    simp only [hkeepne, Bool.false_eq_true, if_false]
    have hrowsne : rows.isEmpty = false := by simpa using hrne
    simp [hrowsne, hecho]

theorem preprocess_sheet_fix (df : RawDF) (h : isCleanSheet df = true) :
    preprocess_sheet df = df := by
  obtain ⟨cols, rows⟩ := df
  rw [isCleanSheet, Bool.or_eq_true] at h
  rcases h with hempty | hbody
  · simp only [Bool.and_eq_true] at hempty
    obtain ⟨he1, he2⟩ := hempty
    have h1 : rows = [] := by simpa using he1
    have h2 : cols = [] := by simpa using he2
    subst h1
    subst h2
    rfl
  · rw [isCleanBody] at hbody
    simp only [Bool.and_eq_true] at hbody
    obtain ⟨⟨⟨⟨⟨c1, c2⟩, c3⟩, c4⟩, c5⟩, c6⟩ := hbody
    have p2 : ∀ r ∈ rows, r.length = cols.length := by
      intro r hr
      simpa using (List.all_eq_true.mp c2) r hr
    have p3 : cols ≠ [] := by simpa using c3
    have p4 : ∀ j, j < cols.length → count_valid rows j > count_invalid rows j := by
      intro j hj
      simpa using (List.all_eq_true.mp c4) j (List.mem_range.mpr hj)
    have p5 : cols.any colBad = false := by simpa using c5
    have hrne : rows ≠ [] := by
      intro he
      have h0 := p4 0 (by cases cols with | nil => exact absurd rfl p3 | cons a l => simp)
      subst he
      simp [count_valid, count_invalid] at h0
    have hrows1 : rows.filter (fun r => !rowIsEmpty r) = rows :=
      List.filter_eq_self.mpr fun r hr => by
        simpa using (List.all_eq_true.mp c1) r hr
    have hkeep : (List.range cols.length).filter
        (fun j => decide (count_valid rows j > count_invalid rows j)) = List.range cols.length :=
      List.filter_eq_self.mpr fun j hj => by
        simpa using p4 j (List.mem_range.mp hj)
    have hcols2 : (List.range cols.length).map (fun j => cols.getD j "") = cols :=
      getD_range_map cols ""
    have hrows2 : rows.map (fun r => (List.range cols.length).map fun j => r.getD j (none : Cell))
        = rows := by
      have he : ∀ r ∈ rows, (List.range cols.length).map (fun j => r.getD j (none : Cell)) = r := by
        intro r hr
        rw [← p2 r hr]
        exact getD_range_map r none
      calc rows.map (fun r => (List.range cols.length).map fun j => r.getD j (none : Cell))
          = rows.map id := List.map_congr_left fun r hr => he r hr
        _ = rows := List.map_id rows
    have hrepair : headerRepairAll cols rows = (cols, rows) := by
      cases rows with
      | nil => exact absurd rfl hrne
      | cons r rs => simp [headerRepairAll, p5]
    have hecho : rows.filter (fun r => !rowEcho cols r) = rows :=
      List.filter_eq_self.mpr fun r hr => by
        simpa using (List.all_eq_true.mp c6) r hr
    rw [preprocess_sheet]
    simp only [hrows1, hkeep, hcols2, hrows2, hrepair, hecho]

/-- C4 (amended): preprocessing is idempotent on every table whose first
pass lands on a dataframe still satisfying the cleaning invariants (no
all-empty row, rectangular, every kept column strictly more valid than
invalid, well-formed labels, no header-echo row; for `preprocess_sheet` an
empty result must also have lost its columns).  In general a second pass can
differ: dropping a sparse column may leave all-empty rows behind, which only
the second pass removes (see the counterexample). -/
theorem preprocess_idempotent_on_clean (t : RawDF)
    (h1 : isCleanDF (preprocess_dataframe t) = true)
    (h2 : isCleanSheet (preprocess_sheet t) = true) :
    preprocess_dataframe (preprocess_dataframe t) = preprocess_dataframe t ∧
      preprocess_sheet (preprocess_sheet t) = preprocess_sheet t :=
  ⟨preprocess_dataframe_fix _ h1, preprocess_sheet_fix _ h2⟩

/-- C4 witness: an already-clean one-column table is preprocessed
idempotently by both implementations. -/
theorem preprocess_idempotent_on_clean_witness :
    isCleanDF (preprocess_dataframe cleanT) = true ∧
      isCleanSheet (preprocess_sheet cleanT) = true ∧
      (preprocess_dataframe (preprocess_dataframe cleanT) = preprocess_dataframe cleanT ∧
        preprocess_sheet (preprocess_sheet cleanT) = preprocess_sheet cleanT) :=
  ⟨by decide, by decide, preprocess_idempotent_on_clean cleanT (by decide) (by decide)⟩

/-- C4 counterexample: on `sparseT` the first pass drops sparse column `B`,
leaving the row that was valid only in `B` entirely empty; the second pass
removes that row, so `preprocess(preprocess(t))` differs from
`preprocess(t)` — for both `preprocess_dataframe` and `preprocess_sheet`. -/
theorem preprocess_not_idempotent :
    preprocess_dataframe (preprocess_dataframe sparseT) ≠ preprocess_dataframe sparseT ∧
      preprocess_sheet (preprocess_sheet sparseT) ≠ preprocess_sheet sparseT :=
  ⟨by decide, by decide⟩

theorem formatDoc_length (s t : String) :
    (formatDoc s t).length = s.length + t.length + 12 := by
  have h1 : ("[Source: " : String).length = 9 := rfl
  have h2 : ("]\n" : String).length = 2 := rfl
  have h3 : ("\n" : String).length = 1 := rfl
  simp only [formatDoc, String.length_append, h1, h2, h3]
  omega

theorem pyTake_length (s : String) (n : Nat) :
    (pyTake s n).length = min n s.length := by
  show (s.toList.take n).length = min n s.length
  rw [List.length_take]
  rfl

theorem pyJoin_foldl_length (sep : String) (as : List String) :
    ∀ a : String, (as.foldl (fun acc x => acc ++ sep ++ x) a).length
      = a.length + (as.map fun x => sep.length + x.length).sum := by
  induction as with
  | nil => intro a; simp
  | cons b bs ih =>
    intro a
    rw [List.foldl_cons, ih, List.map_cons, List.sum_cons, String.length_append,
      String.length_append]
    omega

theorem sum_map_sep_add (sep : String) (cs : List String) :
    (cs.map fun x => sep.length + x.length).sum
      = cs.length * sep.length + (cs.map String.length).sum := by
  induction cs with
  | nil => simp
  | cons c cs ih =>
    simp only [List.map_cons, List.sum_cons, List.length_cons, ih]
    ring

theorem pyJoin_length_le (sep : String) (l : List String) :
    (pyJoin sep l).length ≤ (l.map String.length).sum + l.length * sep.length := by
  cases l with
  | nil => simp [pyJoin]
  | cons a as =>
    rw [pyJoin, pyJoin_foldl_length, sum_map_sep_add]
    simp only [List.map_cons, List.sum_cons, List.length_cons]
    have : as.length * sep.length ≤ (as.length + 1) * sep.length := by
      have := Nat.le_succ as.length
      exact Nat.mul_le_mul_right sep.length this
    omega

theorem build_context_over (docs : List RetrievalResult) (total L : Nat)
    (h : total > L) : build_context docs total L = ⟨[], [], 0⟩ := by
  cases docs with
  | nil => rfl
  | cons doc docs =>
    rw [build_context]
    rw [if_pos (by omega), if_neg (by omega)]

theorem build_context_weight (docs : List RetrievalResult) :
    ∀ total L : Nat,
      ((build_context docs total L).parts.map String.length).sum
          + (build_context docs total L).parts.length
        ≤ (L - total) + 3
            + ((build_context docs total L).sources.map fun s => s.length + 13).sum := by
  induction docs with
  | nil => intro total L; simp [build_context]
  | cons doc docs ih =>
    intro total L
    by_cases hover : total + doc.text.length > L
    · by_cases hrem : L - total > 100
      · have htlen : (pyTake doc.text (L - total) ++ "...").length = (L - total) + 3 := by
          rw [String.length_append, pyTake_length]
          have h1 : L - total ≤ doc.text.length := by omega
          have h2 : ("..." : String).length = 3 := rfl
          rw [Nat.min_eq_left h1, h2]
        have hrest : build_context docs (total + ((L - total) + 3)) L = ⟨[], [], 0⟩ :=
          build_context_over _ _ _ (by omega)
        rw [build_context, if_pos hover, if_pos hrem]
        simp only [formatDoc_length, htlen, hrest, List.map_cons, List.sum_cons,
          List.map_nil, List.sum_nil, List.length_cons, List.length_nil]
        omega
      · rw [build_context, if_pos hover, if_neg hrem]
        simp
    · specialize ih (total + doc.text.length) L
      rw [build_context, if_neg hover]
      simp only [formatDoc_length, List.map_cons, List.sum_cons, List.length_cons]
      omega

theorem build_context_truncated_le_one (docs : List RetrievalResult) :
    ∀ total L : Nat, (build_context docs total L).truncated ≤ 1 := by
  induction docs with
  | nil => intro total L; simp [build_context]
  | cons doc docs ih =>
    intro total L
    by_cases hover : total + doc.text.length > L
    · by_cases hrem : L - total > 100
      · have htlen : (pyTake doc.text (L - total) ++ "...").length = (L - total) + 3 := by
          rw [String.length_append, pyTake_length]
          have h1 : L - total ≤ doc.text.length := by omega
          have h2 : ("..." : String).length = 3 := rfl
          rw [Nat.min_eq_left h1, h2]
        have hrest : build_context docs (total + ((L - total) + 3)) L = ⟨[], [], 0⟩ :=
          build_context_over _ _ _ (by omega)
        rw [build_context, if_pos hover, if_pos hrem]
        simp only [htlen, hrest]
        omega
      · rw [build_context, if_pos hover, if_neg hrem]
        simp
    · rw [build_context, if_neg hover]
      exact ih (total + doc.text.length) L

/-- C6 (amended): the context string is bounded by `maxLength` plus one
truncation ellipsis (3 characters) plus a per-included-item source-header
overhead — `len("[Source: " + s + "]\n") + 1` newline, i.e. `len(s) + 13`
for each item the loop actually appended (`(build_context documents 0
L).sources` holds exactly one source name per included item, in order of
addition, so the sum ranges over the included items only, not over the whole
input list) — and at most one item is ever truncated.  (The loop budget
counts text lengths only, so every included item contributes its header on
top of `maxLength`; the claim's `ε` covering only the last item's header is
too small, see the counterexample.) -/
theorem get_document_context_budget (documents : List RetrievalResult) (L : Nat) :
    (get_document_context documents L).1.length
        ≤ L + 3 + ((build_context documents 0 L).sources.map fun s => s.length + 13).sum ∧
      (build_context documents 0 L).truncated ≤ 1 := by
  constructor
  · have h1 := pyJoin_length_le "\n" (build_context documents 0 L).parts
    have h2 := build_context_weight documents 0 L
    have h3 : ("\n" : String).length = 1 := rfl
    rw [h3] at h1
    show (pyJoin "\n" (build_context documents 0 L).parts).length ≤ _
    omega
  · exact build_context_truncated_le_one documents 0 L

/-- C6 counterexample: three 10-character documents with 10-character source
names under a budget of 30 all fit untruncated, and the three headers make
the context 98 characters long — beyond the claimed budget of `maxLength`
plus one ellipsis plus the last item's source header. -/
theorem get_document_context_exceeds_single_header_budget :
    (get_document_context docs3 30).1.length = 98 ∧
      30 + 3 + ("[Source: abcdefghij]\n" ++ "\n").length < 98 :=
  ⟨by rfl, by decide⟩

theorem insertLex_mem {key : α → Rat} {x : Nat × α} {acc : List (Nat × α)} :
    ∀ z ∈ insertLex key x acc, z = x ∨ z ∈ acc := by
  induction acc with
  | nil =>
    intro z hz
    rw [insertLex] at hz
    exact Or.inl (List.mem_singleton.mp hz)
  | cons y ys ih =>
    intro z hz
    rw [insertLex] at hz
    split at hz
    · rcases List.mem_cons.mp hz with h | h
      · exact Or.inr (h ▸ List.mem_cons_self y ys)
      · rcases ih z h with h' | h'
        · exact Or.inl h'
        · exact Or.inr (List.mem_cons_of_mem y h')
    · rcases List.mem_cons.mp hz with h | h
      · exact Or.inl h
      · exact Or.inr h

theorem insertLex_map_snd (key : α → Rat) (x : Nat × α) (acc : List (Nat × α))
    (h : ∀ y ∈ acc, y.1 < x.1) :
    (insertLex key x acc).map Prod.snd = insertDesc key x.2 (acc.map Prod.snd) := by
  induction acc with
  | nil => rfl
  | cons y ys ih =>
    have hy : y.1 < x.1 := h y (List.mem_cons_self y ys)
    by_cases hc : key x.2 ≤ key y.2
    · have hcond : key x.2 < key y.2 ∨ (key x.2 = key y.2 ∧ y.1 ≤ x.1) := by
        rcases lt_or_eq_of_le hc with h' | h'
        · exact Or.inl h'
        · exact Or.inr ⟨h', Nat.le_of_lt hy⟩
      rw [insertLex, if_pos hcond, List.map_cons, List.map_cons, insertDesc, if_pos hc,
        ih fun z hz => h z (List.mem_cons_of_mem y hz)]
    · have hcond : ¬(key x.2 < key y.2 ∨ (key x.2 = key y.2 ∧ y.1 ≤ x.1)) := by
        intro hor
        rcases hor with h' | ⟨h', _⟩
        · exact hc (le_of_lt h')
        · exact hc (le_of_eq h')
      rw [insertLex, if_neg hcond, List.map_cons, List.map_cons, insertDesc, if_neg hc]

theorem foldl_lex_bridge (key : α → Rat) :
    ∀ (l : List α) (k : Nat) (accL : List (Nat × α)),
      (∀ y ∈ accL, y.1 < k) →
      (List.foldl (fun acc x => insertLex key x acc) accL (l.enumFrom k)).map Prod.snd
        = List.foldl (fun acc x => insertDesc key x acc) (accL.map Prod.snd) l := by
  intro l
  induction l with
  | nil => intro k accL _; rfl
  | cons a l ih =>
    intro k accL h
    rw [List.enumFrom_cons, List.foldl_cons, List.foldl_cons]
    have hmem : ∀ y ∈ insertLex key (k, a) accL, y.1 < k + 1 := by
      intro y hy
      rcases insertLex_mem y hy with h' | h'
      · rw [h']
        exact Nat.lt_succ_self k
      · exact Nat.lt_succ_of_lt (h y h')
    rw [ih (k + 1) _ hmem, insertLex_map_snd key (k, a) accL fun y hy => h y hy]

theorem pySortDesc_eq_lexSortIdx (key : α → Rat) (l : List α) :
    pySortDesc key l = (lexSortIdx key l.enum).map Prod.snd := by
  rw [pySortDesc, lexSortIdx, List.enum]
  exact (foldl_lex_bridge key l 0 [] (by simp)).symm

theorem insertDesc_map (key : β → Rat) (g : α → β) (x : α) (acc : List α) :
    insertDesc key (g x) (acc.map g) = (insertDesc (fun a => key (g a)) x acc).map g := by
  induction acc with
  | nil => rfl
  | cons y ys ih =>
    by_cases hc : key (g x) ≤ key (g y)
    · rw [List.map_cons, insertDesc, if_pos hc, insertDesc, if_pos hc, List.map_cons, ih]
    · rw [List.map_cons, insertDesc, if_neg hc, insertDesc, if_neg hc, List.map_cons,
        List.map_cons]

theorem pySortDesc_map (key : β → Rat) (g : α → β) (l : List α) :
    pySortDesc key (l.map g) = (pySortDesc (fun a => key (g a)) l).map g := by
  suffices h : ∀ acc : List α,
      List.foldl (fun acc x => insertDesc key x acc) (acc.map g) (l.map g)
        = (List.foldl (fun acc x => insertDesc (fun a => key (g a)) x acc) acc l).map g by
    simpa [pySortDesc] using h []
  induction l with
  | nil => intro acc; rfl
  | cons a l ih =>
    intro acc
    rw [List.map_cons, List.foldl_cons, List.foldl_cons, insertDesc_map, ih]

/-- C7: `find_most_relevant_sheets` equals the specification ranking: with
exactly one loaded sheet it returns that sheet for every score function (so
no relevance is computed), and otherwise it returns the top `top_n` sheet
names ordered by score descending with ties broken by original insertion
position (`rankSheetsSpec`, whose reference order `lexBefore` is proven
transitive, its sort a sorted permutation, in the lemmas above). -/
theorem find_most_relevant_sheets_spec :
    (∀ (score : String → Rat) (sheets : List String) (top_n : Nat),
        find_most_relevant_sheets score sheets top_n = rankSheetsSpec score sheets top_n) ∧
    (∀ (score : String → Rat) (s : String) (top_n : Nat),
        find_most_relevant_sheets score [s] top_n = [s]) := by
  constructor
  · intro score sheets top_n
    rw [find_most_relevant_sheets, rankSheetsSpec]
    by_cases h1 : sheets.length = 1
    · rw [if_pos h1, if_pos h1]
      cases sheets with
      | nil => simp at h1
      | cons a l =>
        cases l with
        | nil => rfl
        | cons b m => simp at h1
    · rw [if_neg h1, if_neg h1]
      rw [← pySortDesc_eq_lexSortIdx]
      have hmap : pySortDesc (fun p : String × Rat => p.2)
          (sheets.map fun s => (s, score s))
          = (pySortDesc (fun s => score s) sheets).map fun s => (s, score s) :=
        pySortDesc_map (fun p : String × Rat => p.2) (fun s => (s, score s)) sheets
      simp only [hmap, ← List.map_take, List.map_map]
      have hid : (Prod.fst ∘ fun s : String => (s, score s)) = id := by
        funext s
        rfl
      rw [hid, List.map_id]
  · intro score s top_n
    rfl

theorem try_sheets_general (cands : List Candidate) :
    ∀ last : Option String,
      try_sheets cands last =
        match (cands.filter fun c => !c.isEmptyDF).find?
            (fun c => conclusive (pyStrip c.response)) with
        | some c => .ok (pyStrip c.response,
            [c.source_name ++ " (sheet: " ++ c.sheet_name ++ ")"])
        | none => .error (unanswerableMsg
            ((((cands.filter fun c => !c.isEmptyDF).getLast?).map
              fun c => pyStrip c.response).or last)) := by
  induction cands with
  | nil => intro last; rfl
  | cons c cs ih =>
    intro last
    by_cases he : c.isEmptyDF
    · rw [try_sheets, if_pos he, ih last, List.filter_cons_of_neg (by simp [he])]
    · rw [try_sheets, if_neg he, List.filter_cons_of_pos (by simp [he])]
      by_cases hc : conclusive (pyStrip c.response)
      · rw [List.find?_cons_of_pos _ (by simpa using hc)]
        simp only [hc, if_true]
      · rw [List.find?_cons_of_neg _ (by simpa using hc)]
        rw [if_neg (by simpa using hc), ih (some (pyStrip c.response))]
        cases hf : (cs.filter fun c => !c.isEmptyDF).find?
            (fun c => conclusive (pyStrip c.response)) with
        | some d => rfl
        | none =>
          have hgl : (((c :: (cs.filter fun c => !c.isEmptyDF)).getLast?).map
                (fun c => pyStrip c.response)).or last
              = ((((cs.filter fun c => !c.isEmptyDF)).getLast?).map
                (fun c => pyStrip c.response)).or (some (pyStrip c.response)) := by
            cases hq : cs.filter fun c => !c.isEmptyDF with
            | nil => simp [List.getLast?]
            | cons d ds =>
              obtain ⟨v, hv⟩ := Option.isSome_iff_exists.mp
                ((List.getLast?_isSome).mpr (by simp) : ((d :: ds).getLast?).isSome)
              rw [List.getLast?_cons_cons, hv]
              rfl
          rw [hgl]

theorem lexBefore_trans {key : α → Rat} {a b c : Nat × α}
    (h1 : lexBefore key a b) (h2 : lexBefore key b c) : lexBefore key a c := by
  rcases h1 with h1 | ⟨h1, h1i⟩
  · rcases h2 with h2 | ⟨h2, _⟩
    · exact Or.inl (lt_trans h2 h1)
    · exact Or.inl (h2 ▸ h1)
  · rcases h2 with h2 | ⟨h2, h2i⟩
    · exact Or.inl (h1 ▸ h2)
    · exact Or.inr ⟨h1.trans h2, le_trans h1i h2i⟩

theorem insertLex_pairwise (key : α → Rat) (x : Nat × α) (acc : List (Nat × α))
    (h : acc.Pairwise (lexBefore key)) :
    (insertLex key x acc).Pairwise (lexBefore key) := by
  induction acc with
  | nil => simp [insertLex, List.pairwise_singleton]
  | cons y ys ih =>
    rw [List.pairwise_cons] at h
    obtain ⟨hy, hys⟩ := h
    by_cases hc : key x.2 < key y.2 ∨ (key x.2 = key y.2 ∧ y.1 ≤ x.1)
    · rw [insertLex, if_pos hc]
      rw [List.pairwise_cons]
      refine ⟨?_, ih hys⟩
      intro z hz
      rcases insertLex_mem z hz with h' | h'
      · rw [h']
        rcases hc with hc | ⟨hc, hci⟩
        · exact Or.inl hc
        · exact Or.inr ⟨hc.symm, hci⟩
      · exact hy z h'
    · rw [insertLex, if_neg hc]
      have hxy : lexBefore key x y := by
        rcases lt_trichotomy (key x.2) (key y.2) with hlt | heq | hgt
        · exact absurd (Or.inl hlt) hc
        · rcases Nat.lt_or_ge x.1 y.1 with hi | hi
          · exact Or.inr ⟨heq, Nat.le_of_lt hi⟩
          · exact absurd (Or.inr ⟨heq, hi⟩) hc
        · exact Or.inl hgt
      rw [List.pairwise_cons]
      refine ⟨?_, List.pairwise_cons.mpr ⟨hy, hys⟩⟩
      intro z hz
      rcases List.mem_cons.mp hz with h' | h'
      · exact h' ▸ hxy
      · exact lexBefore_trans hxy (hy z h')

theorem lexSortIdx_pairwise (key : α → Rat) (l : List (Nat × α)) :
    (lexSortIdx key l).Pairwise (lexBefore key) := by
  suffices h : ∀ acc : List (Nat × α), acc.Pairwise (lexBefore key) →
      (List.foldl (fun acc x => insertLex key x acc) acc l).Pairwise (lexBefore key) from
    h [] (List.Pairwise.nil)
  induction l with
  | nil => intro acc hacc; exact hacc
  | cons a l ih =>
    intro acc hacc
    rw [List.foldl_cons]
    exact ih _ (insertLex_pairwise key a acc hacc)

theorem insertLex_perm (key : α → Rat) (x : Nat × α) (acc : List (Nat × α)) :
    (insertLex key x acc).Perm (x :: acc) := by
  induction acc with
  | nil => rfl
  | cons y ys ih =>
    rw [insertLex]
    split
    · exact ((ih).cons y).trans (List.Perm.swap x y ys)
    · exact List.Perm.refl _

theorem lexSortIdx_perm (key : α → Rat) (l : List (Nat × α)) :
    (lexSortIdx key l).Perm l := by
  suffices h : ∀ acc : List (Nat × α),
      (List.foldl (fun acc x => insertLex key x acc) acc l).Perm (l ++ acc) by
    simpa using h []
  induction l with
  | nil => intro acc; simp
  | cons a l ih =>
    intro acc
    rw [List.foldl_cons]
    exact (ih (insertLex key a acc)).trans
      ((List.Perm.append_left l (insertLex_perm key a acc)).trans List.perm_middle)

theorem lexSortIdx_scores_desc (key : α → Rat) (l : List (Nat × α)) :
    ((lexSortIdx key l).map Prod.snd).Pairwise (fun a b => key b ≤ key a) := by
  have h := lexSortIdx_pairwise key l
  refine List.Pairwise.map Prod.snd ?_ h
  intro a b hab
  rcases hab with h2 | ⟨h2, _⟩
  · exact le_of_lt h2
  · exact le_of_eq h2.symm

/-- C8: the fallback controller's candidate list is exactly the reference
sort of the flattened per-file candidates by relevance descending, stable on
ties (first conjunct), and the candidate loop started with no recorded error
skips empty tables, returns the first stripped response that is non-empty
and free of the case-insensitive substrings "error", "not found" and
"no relevant" together with its single source reference, and otherwise
fails with the unanswerable error carrying the last attempted candidate's
stripped (inconclusive) response (second conjunct, `fallbackSpec`). -/
theorem query_with_csv_context_spec :
    (∀ (loaded_files : List (String × List SheetInfo)) (score : String → String → Rat)
        (answer : String → String → String),
        sheets_to_try loaded_files score answer
          = (lexSortIdx (fun c => c.relevance)
              (candidatesFlat loaded_files score answer).enum).map Prod.snd) ∧
    (∀ cands : List Candidate, try_sheets cands none = fallbackSpec cands) := by
  constructor
  · intro lf score answer
    exact pySortDesc_eq_lexSortIdx (fun c => c.relevance) (candidatesFlat lf score answer)
  · intro cands
    rw [try_sheets_general cands none, fallbackSpec]
    cases hf : (cands.filter fun c => !c.isEmptyDF).find?
        (fun c => conclusive (pyStrip c.response)) with
    | some d => rfl
    | none => simp

theorem find?_assoc_of_mem {l : List (String × RawDF)} {name : String} {df : RawDF}
    (hnd : (l.map Prod.fst).Nodup) (hmem : (name, df) ∈ l) :
    l.find? (fun p => p.1 = name) = some (name, df) := by
  induction l with
  | nil => cases hmem
  | cons a l ih =>
    rw [List.map_cons, List.nodup_cons] at hnd
    obtain ⟨hna, hnd⟩ := hnd
    rcases List.mem_cons.mp hmem with h | h
    · rw [← h]
      rw [List.find?_cons_of_pos _ (by simp)]
    · have hane : ¬(a.1 = name) := by
        intro he
        exact hna (he ▸ List.mem_map_of_mem Prod.fst h)
      rw [List.find?_cons_of_neg _ (by simpa using hane)]
      exact ih hnd h

/-- C10: `switch_sheet` with an unknown sheet name returns the unchanged
state together with the `ValueError` naming the available sheets; with a
loaded sheet name (sheet names are dictionary keys, hence `Nodup`) it
repoints `current_sheet` to that name and returns exactly that sheet's
dataframe. -/
theorem switch_sheet_spec :
    (∀ (h : HandlerState) (name : String), name ∉ list_sheets h →
        switch_sheet h name = (h, Except.error ("Sheet '" ++ name ++
          "' not found. Available sheets: " ++ pyStrListRepr (list_sheets h)))) ∧
    (∀ (h : HandlerState) (name : String) (df : RawDF),
        (list_sheets h).Nodup → (name, df) ∈ h.dfs →
        switch_sheet h name = ({ h with current_sheet := some name }, Except.ok df)) := by
  constructor
  · intro h name hmem
    rw [switch_sheet, if_pos]
    rw [list_sheets] at hmem
    simpa using hmem
  · intro h name df hnd hmem
    have hcont : (h.dfs.map Prod.fst).contains name = true := by
      have : name ∈ h.dfs.map Prod.fst := List.mem_map_of_mem Prod.fst hmem
      simpa using this
    rw [switch_sheet, if_neg (fun hn => hn hcont)]
    have hne : h.dfs.isEmpty = false := by
      have := List.ne_nil_of_mem hmem
      simpa using this
    simp only [get_current_df, hne, Bool.false_eq_true, if_false,
      find?_assoc_of_mem (by simpa [list_sheets] using hnd : (h.dfs.map Prod.fst).Nodup) hmem]

/-- C10 witness: on a concrete two-sheet handler, switching to the missing
sheet `nope` errors atomically and switching to `s2` selects its frame. -/
theorem switch_sheet_spec_witness :
    ("nope" ∉ list_sheets hsample ∧
      switch_sheet hsample "nope" = (hsample, Except.error ("Sheet '" ++ "nope" ++
        "' not found. Available sheets: " ++ pyStrListRepr (list_sheets hsample)))) ∧
    ((list_sheets hsample).Nodup ∧ ("s2", sparseT) ∈ hsample.dfs ∧
      switch_sheet hsample "s2"
        = ({ hsample with current_sheet := some "s2" }, Except.ok sparseT)) :=
  ⟨⟨by decide, switch_sheet_spec.1 hsample "nope" (by decide)⟩,
   ⟨by decide, by decide,
    switch_sheet_spec.2 hsample "s2" sparseT (by decide) (by decide)⟩⟩

end ChatbotMS
